import Mathlib

/-!
Verification development for the nautilus_trader sample: a shallow embedding
of the trading-strategy configuration loader (`nautilus_trader/trading/config.py`),
the in-memory market-data cache, the wire codec and the backtest replay engine,
together with theorems settling the specification claims about them.

Python strings are embedded as `List Char`; Python `None` as `Option.none`;
fallible Python code as explicit outcome types.
-/

namespace Nautilus

/-- A Python string, embedded as its list of characters. -/
abbrev PyStr := List Char

/-- Python's notion of a whitespace character for `str.isspace`
(the ASCII ones: tab, newline, vertical tab, form feed, carriage return, space). -/
def pySpaceChar (c : Char) : Bool :=
  c.toNat = 9 || c.toNat = 10 || c.toNat = 11 || c.toNat = 12 || c.toNat = 13 || c.toNat = 32

/-- Python `str.isspace`: true iff the string is nonempty and every
character is whitespace (note: the empty string is NOT `isspace`). -/
def pyIsSpace (s : PyStr) : Bool :=
  !s.isEmpty && s.all pySpaceChar

/-- Python `str.split(sep)` for a one-character separator with no maxsplit;
`str.rsplit(sep)` with no maxsplit produces the same list. -/
def pySplit (sep : Char) : List Char → List PyStr
  | [] => [[]]
  | c :: cs =>
    if c = sep then [] :: pySplit sep cs
    else
      match pySplit sep cs with
      | [] => [[c]]
      | p :: ps => (c :: p) :: ps

/-- `TradingStrategyConfig` (pydantic model): base configuration for a strategy. -/
structure TradingStrategyConfig where
  order_id_tag : PyStr := ['0', '0', '0']
  oms_type : PyStr := ['H', 'E', 'D', 'G', 'I', 'N', 'G']
deriving DecidableEq

/-- A constructed `TradingStrategy` instance, abstracted to the configuration
it was constructed with (strategy internals are an external collaborator). -/
structure TradingStrategy where
  config : TradingStrategyConfig
deriving DecidableEq

/-- The `config` field of `ImportableStrategyConfig` has Python type
`Union[TradingStrategyConfig, str]`. -/
inductive ConfigField where
  | strat (c : TradingStrategyConfig)
  | text (s : PyStr)
deriving DecidableEq

/-- `ImportableStrategyConfig` (pydantic model): `path` is an optional
module-path string of the form `path.to.module:class`, `source` is optional
inline source text (bytes), `config` is the strategy configuration. -/
structure ImportableStrategyConfig where
  path : Option PyStr
  source : Option PyStr
  config : ConfigField
deriving DecidableEq

/-- `ImportableStrategyConfig._check_path`: `assert self.path` (truthy, i.e.
not `None` and nonempty) and `assert ":" in self.path`.  `true` iff both
assertions pass. -/
def ImportableStrategyConfig.checkPath (cfg : ImportableStrategyConfig) : Bool :=
  match cfg.path with
  | none => false
  | some p => !p.isEmpty && p.contains ':'

/-- `ImportableStrategyConfig.module`: `self.path.rsplit(":")[0]` after
`_check_path`; `none` models the `AssertionError` when the check fails. -/
def ImportableStrategyConfig.module (cfg : ImportableStrategyConfig) : Option PyStr :=
  if cfg.checkPath then some ((pySplit ':' (cfg.path.getD [])).headD []) else none

/-- `ImportableStrategyConfig.cls`: `self.path.rsplit(":")[1]` after
`_check_path`; `none` models the `AssertionError` when the check fails. -/
def ImportableStrategyConfig.cls (cfg : ImportableStrategyConfig) : Option PyStr :=
  if cfg.checkPath then (pySplit ':' (cfg.path.getD []))[1]? else none

/-- Outcome of running a (fallible) Python call: a returned value or one of
the exception kinds `StrategyFactory.create` can raise. -/
inductive PyOutcome (α : Type) where
  | ok (a : α)
  | valueError
  | assertionError
  | importError
deriving DecidableEq

/-- The import environment: resolves a (module name, class name) pair to the
constructor of the named strategy class, `none` when the import or attribute
lookup fails.  External to the factory. -/
abbrev ImportEnv := PyStr → PyStr → Option (TradingStrategyConfig → TradingStrategy)

/-- The error guard of `StrategyFactory.create`:
`(config.path is None or config.path.isspace()) and
 (config.source is None or config.source.isspace())`. -/
def createGuard (cfg : ImportableStrategyConfig) : Bool :=
  (match cfg.path with | none => true | some p => pyIsSpace p)
  && (match cfg.source with | none => true | some s => pyIsSpace s)

/-- `StrategyFactory.create`: raises `ValueError` when the guard holds;
otherwise, when `path` is not `None`, imports the module, looks up the class
and returns `cls(config=config.config)` (with `module`/`cls` property
assertions and the `isinstance` assertion modelled); when `path` is `None`
(so inline `source` was given), the branch first evaluates `config.module`
as the argument of `spec_from_loader` — and `_check_path`'s
`assert self.path` fails on the `None` path, so the call raises
`AssertionError` before the source is ever executed. -/
def StrategyFactory.create (env : ImportEnv) (cfg : ImportableStrategyConfig) :
    PyOutcome (Option TradingStrategy) :=
  if createGuard cfg then .valueError
  else
    match cfg.path with
    | some _ =>
      match cfg.module with
      | none => .assertionError
      | some m =>
        match cfg.cls with
        | none => .assertionError
        | some k =>
          match env m k with
          | none => .importError
          | some mk =>
            match cfg.config with
            | .strat sc => .ok (some (mk sc))
            | .text _ => .assertionError
    | none =>
      match cfg.module with
      | none => .assertionError
      | some _ => .ok none

/-- The phrase "absent or whitespace-only" of the specification, for an
optional string field. -/
def absentOrWhitespaceOnly : Option PyStr → Bool
  | none => true
  | some s => pyIsSpace s

/-- `pySplit` on a string that does not contain the separator yields the
one-element list holding the whole string. -/
theorem pySplit_of_not_mem (sep : Char) (s : List Char) (h : sep ∉ s) :
    pySplit sep s = [s] := by
  induction s with
  | nil => rfl
  | cons c cs ih =>
    have hc : c ≠ sep := fun hcs => h (hcs ▸ List.mem_cons_self c cs)
    have hcs : sep ∉ cs := fun hm => h (List.mem_cons_of_mem c hm)
    simp [pySplit, hc, ih hcs]

/-- `pySplit` splits off the prefix before the first separator occurrence. -/
theorem pySplit_append (sep : Char) (a b : List Char) (ha : sep ∉ a) :
    pySplit sep (a ++ sep :: b) = a :: pySplit sep b := by
  induction a with
  | nil => simp [pySplit]
  | cons c cs ih =>
    have hc : c ≠ sep := fun hcs => ha (hcs ▸ List.mem_cons_self c cs)
    have hcs : sep ∉ cs := fun hm => ha (List.mem_cons_of_mem c hm)
    simp [pySplit, hc, ih hcs]

/-- A string of the form `a ++ ':' :: b` contains a colon. -/
theorem contains_colon (a b : List Char) : (a ++ ':' :: b).contains ':' = true := by
  simp [List.contains]

/-- C10.  Path parsing of `ImportableStrategyConfig`: when `path` is
`a ++ ":" ++ b` with exactly one colon, `module` returns `a` and `cls`
returns `b` (so `module ++ ":" ++ cls == path`); when `path` is `None`,
empty, or contains no colon, both properties fail their assertion
(modelled as `none`) instead of returning a value. -/
theorem importable_config_path_parsing (cfg : ImportableStrategyConfig)
    (a b : List Char) (ha : (':' : Char) ∉ a) (hb : (':' : Char) ∉ b) :
    (cfg.path = some (a ++ ':' :: b) → cfg.module = some a ∧ cfg.cls = some b)
    ∧ ((cfg.path = none ∨ cfg.path = some [] ∨ ∀ p, cfg.path = some p → (':' : Char) ∉ p) →
        cfg.module = none ∧ cfg.cls = none) := by
  constructor
  · intro hp
    have hsplit : pySplit ':' (a ++ ':' :: b) = a :: pySplit ':' b :=
      pySplit_append ':' a b ha
    have hb' : pySplit ':' b = [b] := pySplit_of_not_mem ':' b hb
    have hcheck : cfg.checkPath = true := by
      simp [ImportableStrategyConfig.checkPath, hp, contains_colon]
    simp [ImportableStrategyConfig.module, ImportableStrategyConfig.cls, hcheck, hp,
      hsplit, hb']
  · intro hcases
    have hcheck : cfg.checkPath = false := by
      rcases hcases with h | h | h
      · simp [ImportableStrategyConfig.checkPath, h]
      · simp [ImportableStrategyConfig.checkPath, h]
      · cases hp : cfg.path with
        | none => simp [ImportableStrategyConfig.checkPath, hp]
        | some p =>
          have hnc : (':' : Char) ∉ p := h p hp
          simp [ImportableStrategyConfig.checkPath, hp, List.contains]
          intro _
          exact hnc
    simp [ImportableStrategyConfig.module, ImportableStrategyConfig.cls, hcheck]

/-- A concrete importable configuration with path `"m:C"`, used as witness input. -/
def msCfg : ImportableStrategyConfig where
  path := some ['m', ':', 'C']
  source := none
  config := ConfigField.strat (TradingStrategyConfig.mk ['0'] ['H'])

/-- Witness for C10 at the concrete path `"m:C"`. -/
theorem importable_config_path_parsing_witness :
    msCfg.module = some ['m'] ∧ msCfg.cls = some ['C'] :=
  (importable_config_path_parsing msCfg ['m'] ['C'] (by decide) (by decide)).1 rfl

/-- C8.  `StrategyFactory.create` raises the configuration error (`ValueError`)
exactly when both the path reference and the inline source are absent or
whitespace-only; when at least one is supplied the error branch is not taken
(and hence no strategy is constructed through it). -/
theorem create_config_error_iff (env : ImportEnv) (cfg : ImportableStrategyConfig) :
    StrategyFactory.create env cfg = .valueError ↔
      (absentOrWhitespaceOnly cfg.path = true ∧ absentOrWhitespaceOnly cfg.source = true) := by
  have hguard : createGuard cfg =
      (absentOrWhitespaceOnly cfg.path && absentOrWhitespaceOnly cfg.source) := by
    cases hp : cfg.path <;> cases hs : cfg.source <;>
      simp [createGuard, absentOrWhitespaceOnly, hp, hs]
  constructor
  · intro hv
    by_contra hne
    have hg : createGuard cfg = false := by
      rw [hguard]
      cases h1 : absentOrWhitespaceOnly cfg.path with
      | false => rfl
      | true =>
        cases h2 : absentOrWhitespaceOnly cfg.source with
        | false => rfl
        | true => exact absurd ⟨h1, h2⟩ hne
    rw [StrategyFactory.create, hg] at hv
    simp at hv
    rcases hp : cfg.path with _ | p <;> rw [hp] at hv
    · rcases hm : cfg.module with _ | m <;> rw [hm] at hv <;> simp at hv
    · rcases hm : cfg.module with _ | m <;> rw [hm] at hv <;> simp at hv
      rcases hc : cfg.cls with _ | k <;> rw [hc] at hv <;> simp at hv
      rcases he : env m k with _ | mk <;> rw [he] at hv <;> simp at hv
      rcases hcf : cfg.config with sc | t <;> rw [hcf] at hv <;> simp at hv
  · intro ⟨h1, h2⟩
    have hg : createGuard cfg = true := by rw [hguard, h1, h2]; rfl
    rw [StrategyFactory.create, hg]
    rfl

/-- Witness for C8: with both fields `None`, `create` raises the
configuration error. -/
theorem create_config_error_iff_witness :
    StrategyFactory.create (fun _ _ => none)
      { path := none, source := none,
        config := ConfigField.strat (TradingStrategyConfig.mk ['0'] ['H']) }
      = .valueError :=
  (create_config_error_iff (fun _ _ => none)
    { path := none, source := none,
      config := ConfigField.strat (TradingStrategyConfig.mk ['0'] ['H']) }).mpr
    (by decide)

/-- C9 (code bug).  When only inline source is supplied
(`path = None`, `source` non-empty source text), the `else` branch of
`create` evaluates `config.module`, whose `_check_path` runs
`assert self.path`; with `path = None` the assertion fails, so `create`
raises `AssertionError` and never returns a constructed `TradingStrategy`
instance — contradicting the function's own docstring
(`Returns ------- TradingStrategy`, with only `TypeError` listed under
`Raises`). -/
theorem create_inline_source_assertion_error :
    StrategyFactory.create (fun _ _ => none)
      { path := none, source := some ['x', ' ', '=', ' ', '1'], config := .strat {} }
      = .assertionError := rfl

/-! ### Market data model

The concrete implementation of the data model, cache, codec and engine is not
part of the source sample (only its unit tests are), so the definitions below
are modelled from the specification, faithful to its words. -/

/-- Shorthand turning a Lean string literal into an embedded Python string. -/
def pyStr (s : String) : PyStr := s.data

/-- Modelled from the spec: `Symbol = (code, venue)`, immutable identifier. -/
structure Symbol where
  code : PyStr
  venue : PyStr
deriving DecidableEq

/-- Modelled from the spec: `Price` is a fixed-point decimal value with an
explicit precision (digits after the decimal point); its numeric value is
`mantissa / 10 ^ precision`, exact (no floating point). -/
structure Price where
  mantissa : Int
  precision : Nat
deriving DecidableEq

/-- The exact rational value of a fixed-point price. -/
def Price.toRat (p : Price) : ℚ := (p.mantissa : ℚ) / (10 ^ p.precision)

/-- Modelled from the spec: `Quantity`, a fixed-point decimal measure. -/
structure Quantity where
  mantissa : Nat
  precision : Nat
deriving DecidableEq

/-- Modelled from the spec: trade side enumeration (buyer-maker, seller-maker). -/
inductive Maker where
  | buyer
  | seller
deriving DecidableEq

/-- Modelled from the spec:
`QuoteTick = (symbol, bid, ask, bid_size, ask_size, timestamp)`. -/
structure QuoteTick where
  symbol : Symbol
  bid : Price
  ask : Price
  bidSize : Quantity
  askSize : Quantity
  timestamp : Nat
deriving DecidableEq

/-- Modelled from the spec:
`TradeTick = (symbol, price, size, side, match_id, timestamp)`. -/
structure TradeTick where
  symbol : Symbol
  price : Price
  size : Quantity
  maker : Maker
  matchId : PyStr
  timestamp : Nat
deriving DecidableEq

/-- Modelled from the spec: `Bar = (open, high, low, close, volume, timestamp)`. -/
structure Bar where
  openPrice : Price
  highPrice : Price
  lowPrice : Price
  closePrice : Price
  volume : Quantity
  timestamp : Nat
deriving DecidableEq

/-- Modelled from the spec: bar aggregation units (e.g. minute). -/
inductive BarAggregation where
  | second
  | minute
  | hour
  | day
deriving DecidableEq

/-- Modelled from the spec: price types for `price()` queries and bar types. -/
inductive PriceType where
  | bid
  | ask
  | mid
  | last
deriving DecidableEq

/-- Modelled from the spec:
`BarType = (symbol, step, aggregation, price_type)`. -/
structure BarType where
  symbol : Symbol
  step : Nat
  aggregation : BarAggregation
  priceType : PriceType
deriving DecidableEq

/-- Modelled from the spec: `Instrument`, identified by `Symbol`, carrying the
reference-data schema of the wire contract (broker symbol, base/quote
currency, tick precision/size, trade-size bounds, rollover rates, timestamp). -/
structure Instrument where
  symbol : Symbol
  brokerSymbol : PyStr
  baseCurrency : PyStr
  quoteCurrency : PyStr
  securityType : PyStr
  tickPrecision : Nat
  tickSize : Price
  minTradeSize : Quantity
  maxTradeSize : Quantity
  rolloverInterestBuy : Int
  rolloverInterestSell : Int
  timestamp : Nat
deriving DecidableEq

/-! ### Data cache -/

/-- The stored sequence for a key in an association-list store; the empty
sequence for an unknown key. -/
def lookupSeq {κ α : Type} [DecidableEq κ] (k : κ) : List (κ × List α) → List α
  | [] => []
  | (k', v) :: rest => if k = k' then v else lookupSeq k rest

/-- Update the sequence stored under a key, creating the entry (from the
empty sequence) when the key is unknown. -/
def updateSeq {κ α : Type} [DecidableEq κ] (k : κ) (f : List α → List α) :
    List (κ × List α) → List (κ × List α)
  | [] => [(k, f [])]
  | (k', v) :: rest =>
    if k = k' then (k', f v) :: rest else (k', v) :: updateSeq k f rest

/-- Modelled from the spec's deduplication rule: prepend the new record
(sequences are newest-first, index 0 most recent) unless it is structurally
equal to the current most-recent record, in which case the sequence is left
unchanged. -/
def dedupCons {α : Type} [DecidableEq α] (x : α) : List α → List α
  | [] => [x]
  | y :: ys => if x = y then y :: ys else x :: y :: ys

/-- Modelled from the spec: the in-memory `DataCache` — one `Instrument` per
symbol, one newest-first sequence of quote ticks and of trade ticks per
symbol, one newest-first sequence of bars per bar type.  (The concrete
`nautilus_trader.data.cache.DataCache` is absent from the source sample;
only its unit tests are present.) -/
structure DataCache where
  instruments : List Instrument
  quoteTickStore : List (Symbol × List QuoteTick)
  tradeTickStore : List (Symbol × List TradeTick)
  barStore : List (BarType × List Bar)
deriving DecidableEq

/-- The freshly constructed, empty cache. -/
def DataCache.empty : DataCache := ⟨[], [], [], []⟩

/-- Modelled from the spec: `add_instrument` inserts if the symbol is absent
and is an idempotent no-op when an instrument for the symbol is present. -/
def DataCache.add_instrument (c : DataCache) (i : Instrument) : DataCache :=
  if c.instruments.any (fun j => j.symbol == i.symbol) then c
  else { c with instruments := c.instruments ++ [i] }

/-- Modelled from the spec: all known symbols (empty when none). -/
def DataCache.symbols (c : DataCache) : List Symbol :=
  c.instruments.map (fun i => i.symbol)

/-- Modelled from the spec: the instrument for a symbol, absent if unknown. -/
def DataCache.instrument (c : DataCache) (s : Symbol) : Option Instrument :=
  c.instruments.find? (fun i => i.symbol == s)

/-- Modelled from the spec: `add_quote_tick` appends (newest-first) with the
deduplication rule against the current most-recent record. -/
def DataCache.add_quote_tick (c : DataCache) (t : QuoteTick) : DataCache :=
  { c with quoteTickStore := updateSeq t.symbol (dedupCons t) c.quoteTickStore }

/-- Modelled from the spec: bulk variant, the single-item rule applied per
item against the then-current tail. -/
def DataCache.add_quote_ticks (c : DataCache) (ts : List QuoteTick) : DataCache :=
  ts.foldl DataCache.add_quote_tick c

/-- Modelled from the spec: `add_trade_tick` with the deduplication rule. -/
def DataCache.add_trade_tick (c : DataCache) (t : TradeTick) : DataCache :=
  { c with tradeTickStore := updateSeq t.symbol (dedupCons t) c.tradeTickStore }

/-- Modelled from the spec: bulk variant for trade ticks. -/
def DataCache.add_trade_ticks (c : DataCache) (ts : List TradeTick) : DataCache :=
  ts.foldl DataCache.add_trade_tick c

/-- Modelled from the spec: `add_bar` with the deduplication rule. -/
def DataCache.add_bar (c : DataCache) (bt : BarType) (b : Bar) : DataCache :=
  { c with barStore := updateSeq bt (dedupCons b) c.barStore }

/-- Modelled from the spec: bulk variant for bars. -/
def DataCache.add_bars (c : DataCache) (bt : BarType) (bs : List Bar) : DataCache :=
  bs.foldl (fun acc b => acc.add_bar bt b) c

/-- Modelled from the spec: the full stored quote-tick sequence for a symbol
(newest first), empty for an unknown symbol. -/
def DataCache.quote_ticks (c : DataCache) (s : Symbol) : List QuoteTick :=
  lookupSeq s c.quoteTickStore

/-- Modelled from the spec: the full stored trade-tick sequence for a symbol. -/
def DataCache.trade_ticks (c : DataCache) (s : Symbol) : List TradeTick :=
  lookupSeq s c.tradeTickStore

/-- Modelled from the spec: the full stored bar sequence for a bar type. -/
def DataCache.bars (c : DataCache) (bt : BarType) : List Bar :=
  lookupSeq bt c.barStore

/-- Modelled from the spec: the quote tick at a most-recent-first index,
absent when the index is out of range or the symbol unknown — never raises. -/
def DataCache.quote_tick (c : DataCache) (s : Symbol) (index : Nat := 0) :
    Option QuoteTick :=
  (c.quote_ticks s)[index]?

/-- Modelled from the spec: the trade tick at a most-recent-first index. -/
def DataCache.trade_tick (c : DataCache) (s : Symbol) (index : Nat := 0) :
    Option TradeTick :=
  (c.trade_ticks s)[index]?

/-- Modelled from the spec: the bar at a most-recent-first index. -/
def DataCache.bar (c : DataCache) (bt : BarType) (index : Nat := 0) : Option Bar :=
  (c.bars bt)[index]?

/-- Modelled from the spec: `quote_tick_count`, 0 for unknown symbols. -/
def DataCache.quote_tick_count (c : DataCache) (s : Symbol) : Nat :=
  (c.quote_ticks s).length

/-- Modelled from the spec: `trade_tick_count`, 0 for unknown symbols. -/
def DataCache.trade_tick_count (c : DataCache) (s : Symbol) : Nat :=
  (c.trade_ticks s).length

/-- Modelled from the spec: `bar_count`, 0 for unknown bar types. -/
def DataCache.bar_count (c : DataCache) (bt : BarType) : Nat :=
  (c.bars bt).length

/-- Modelled from the spec: presence check, false for unknown/empty. -/
def DataCache.has_quote_ticks (c : DataCache) (s : Symbol) : Bool :=
  !(c.quote_ticks s).isEmpty

/-- Modelled from the spec: presence check for trade ticks. -/
def DataCache.has_trade_ticks (c : DataCache) (s : Symbol) : Bool :=
  !(c.trade_ticks s).isEmpty

/-- Modelled from the spec: presence check for bars. -/
def DataCache.has_bars (c : DataCache) (bt : BarType) : Bool :=
  !(c.bars bt).isEmpty

/-- Modelled from the spec: `price(symbol, price_type)` — `LAST` from the most
recent trade tick only, `BID`/`ASK` from the corresponding field of the most
recent quote tick only, `MID` exactly `(bid + ask) / 2` of the most recent
quote tick; absent when the respective sequence is empty. -/
def DataCache.price (c : DataCache) (s : Symbol) (pt : PriceType) : Option ℚ :=
  match pt with
  | .last => (c.trade_ticks s).head?.map (fun t => t.price.toRat)
  | .bid => (c.quote_ticks s).head?.map (fun q => q.bid.toRat)
  | .ask => (c.quote_ticks s).head?.map (fun q => q.ask.toRat)
  | .mid => (c.quote_ticks s).head?.map (fun q => (q.bid.toRat + q.ask.toRat) / 2)

/-- Modelled from the spec: the first instrument at the venue whose base/quote
currencies form the direct pair `from/to`. -/
def DataCache.directPair (c : DataCache) (venue fromC toC : PyStr) : Option Instrument :=
  c.instruments.find?
    (fun i => i.symbol.venue == venue && i.baseCurrency == fromC && i.quoteCurrency == toC)

/-- Modelled from the spec: the first instrument at the venue whose base/quote
currencies form the inverse pair `to/from`. -/
def DataCache.inversePair (c : DataCache) (venue fromC toC : PyStr) : Option Instrument :=
  c.instruments.find?
    (fun i => i.symbol.venue == venue && i.baseCurrency == toC && i.quoteCurrency == fromC)

/-- Modelled from the spec: `get_xrate(venue, from, to)` — exactly `1` when
`from == to`; otherwise the most recent quote's exact bid/ask average for a
direct pair, the inversion `1/rate` of it when only the inverse pair is
known, and "rate unavailable" (absent) when neither exists. -/
def DataCache.get_xrate (c : DataCache) (venue fromC toC : PyStr) : Option ℚ :=
  if fromC = toC then some 1
  else
    match c.directPair venue fromC toC with
    | some i => c.price i.symbol .mid
    | none =>
      match c.inversePair venue fromC toC with
      | some i => (c.price i.symbol .mid).map (fun r => 1 / r)
      | none => none

/-- Modelled from the spec: `reset()` clears all storage; the cache becomes
indistinguishable from a freshly constructed empty cache. -/
def DataCache.reset (_c : DataCache) : DataCache := DataCache.empty

/-! ### Cache lemmas and claim theorems -/

/-- Looking up an unknown key in a store yields the empty sequence. -/
theorem lookupSeq_of_not_mem {κ α : Type} [DecidableEq κ]
    (k : κ) (m : List (κ × List α)) (h : k ∉ m.map Prod.fst) :
    lookupSeq k m = [] := by
  induction m with
  | nil => rfl
  | cons kv rest ih =>
    obtain ⟨k', v⟩ := kv
    have hk : k ≠ k' := by
      intro hkk
      exact h (by simp [hkk])
    have hrest : k ∉ rest.map Prod.fst := by
      intro hm
      exact h (by simp [hm])
    simp [lookupSeq, hk, ih hrest]

/-- Deduplicating insertion of the current most-recent record of a key leaves
the store unchanged. -/
theorem updateSeq_dedup_head {κ α : Type} [DecidableEq κ] [DecidableEq α]
    (k : κ) (x : α) (m : List (κ × List α))
    (h : (lookupSeq k m).head? = some x) :
    updateSeq k (dedupCons x) m = m := by
  induction m with
  | nil => simp [lookupSeq] at h
  | cons kv rest ih =>
    obtain ⟨k', v⟩ := kv
    by_cases hk : k = k'
    · subst hk
      simp [lookupSeq] at h
      cases v with
      | nil => simp at h
      | cons y ys =>
        simp at h
        simp [updateSeq, dedupCons, h]
    · simp [lookupSeq, hk] at h
      simp [updateSeq, hk, ih h]

/-- C4.  Cache deduplication is an append no-op: adding a quote tick, trade
tick or bar that is structurally equal to the current most-recent record for
its key leaves the whole cache (hence the stored sequence and its count)
unchanged; the bulk variants behave as the single-item rule applied
item-by-item against the evolving tail, so the duplicate item of a bulk list
is likewise a no-op; and structural equality of ticks is full field-wise
equality, not timestamp-only. -/
theorem cache_dedup_noop (c : DataCache) (qt : QuoteTick) (tt : TradeTick)
    (bt : BarType) (b : Bar) (qts : List QuoteTick) (tts : List TradeTick)
    (bs : List Bar) :
    ((c.quote_ticks qt.symbol).head? = some qt →
        c.add_quote_tick qt = c
      ∧ c.add_quote_ticks (qt :: qts) = c.add_quote_ticks qts
      ∧ (c.add_quote_tick qt).quote_tick_count qt.symbol = c.quote_tick_count qt.symbol)
  ∧ ((c.trade_ticks tt.symbol).head? = some tt →
        c.add_trade_tick tt = c
      ∧ c.add_trade_ticks (tt :: tts) = c.add_trade_ticks tts
      ∧ (c.add_trade_tick tt).trade_tick_count tt.symbol = c.trade_tick_count tt.symbol)
  ∧ ((c.bars bt).head? = some b →
        c.add_bar bt b = c
      ∧ c.add_bars bt (b :: bs) = c.add_bars bt bs
      ∧ (c.add_bar bt b).bar_count bt = c.bar_count bt)
  ∧ (∀ t t' : QuoteTick, t = t' ↔
        t.symbol = t'.symbol ∧ t.bid = t'.bid ∧ t.ask = t'.ask
      ∧ t.bidSize = t'.bidSize ∧ t.askSize = t'.askSize
      ∧ t.timestamp = t'.timestamp) := by
  refine ⟨fun h => ?_, fun h => ?_, fun h => ?_, fun t t' => ?_⟩
  · have hstore : updateSeq qt.symbol (dedupCons qt) c.quoteTickStore = c.quoteTickStore :=
      updateSeq_dedup_head qt.symbol qt c.quoteTickStore h
    have hadd : c.add_quote_tick qt = c := by
      simp [DataCache.add_quote_tick, hstore]
    exact ⟨hadd, by simp [DataCache.add_quote_ticks, List.foldl_cons, hadd], by rw [hadd]⟩
  · have hstore : updateSeq tt.symbol (dedupCons tt) c.tradeTickStore = c.tradeTickStore :=
      updateSeq_dedup_head tt.symbol tt c.tradeTickStore h
    have hadd : c.add_trade_tick tt = c := by
      simp [DataCache.add_trade_tick, hstore]
    exact ⟨hadd, by simp [DataCache.add_trade_ticks, List.foldl_cons, hadd], by rw [hadd]⟩
  · have hstore : updateSeq bt (dedupCons b) c.barStore = c.barStore :=
      updateSeq_dedup_head bt b c.barStore h
    have hadd : c.add_bar bt b = c := by
      simp [DataCache.add_bar, hstore]
    exact ⟨hadd, by simp [DataCache.add_bars, List.foldl_cons, hadd], by rw [hadd]⟩
  · constructor
    · intro h
      subst h
      exact ⟨rfl, rfl, rfl, rfl, rfl, rfl⟩
    · intro ⟨h1, h2, h3, h4, h5, h6⟩
      cases t
      cases t'
      simp only at h1 h2 h3 h4 h5 h6
      simp [h1, h2, h3, h4, h5, h6]

/-- Witness for C4: a cache holding exactly one quote tick, one trade tick and
one bar, each re-added. -/
theorem cache_dedup_noop_witness :
    (let s : Symbol := ⟨pyStr "AUD/USD", pyStr "FXCM"⟩
     let qt : QuoteTick := ⟨s, ⟨100000, 5⟩, ⟨100001, 5⟩, ⟨1, 0⟩, ⟨1, 0⟩, 0⟩
     let c : DataCache := DataCache.empty.add_quote_tick qt
     (c.quote_ticks qt.symbol).head? = some qt ∧ c.add_quote_tick qt = c) := by
  refine ⟨by decide, ?_⟩
  exact ((cache_dedup_noop
    (DataCache.empty.add_quote_tick
      ⟨⟨pyStr "AUD/USD", pyStr "FXCM"⟩, ⟨100000, 5⟩, ⟨100001, 5⟩, ⟨1, 0⟩, ⟨1, 0⟩, 0⟩)
    ⟨⟨pyStr "AUD/USD", pyStr "FXCM"⟩, ⟨100000, 5⟩, ⟨100001, 5⟩, ⟨1, 0⟩, ⟨1, 0⟩, 0⟩
    ⟨⟨pyStr "AUD/USD", pyStr "FXCM"⟩, ⟨100000, 5⟩, ⟨10000, 0⟩, .buyer, pyStr "123456789", 0⟩
    ⟨⟨pyStr "GBP/USD", pyStr "FXCM"⟩, 1, .second, .mid⟩
    ⟨⟨100001, 5⟩, ⟨100004, 5⟩, ⟨100002, 5⟩, ⟨100003, 5⟩, ⟨100000, 0⟩, 0⟩
    [] [] []).1 (by decide)).1

/-- The quote tick of the spec's MID example: bid = 1.00000, ask = 1.00001. -/
def midExampleTick (s : Symbol) : QuoteTick :=
  ⟨s, ⟨100000, 5⟩, ⟨100001, 5⟩, ⟨1, 0⟩, ⟨1, 0⟩, 0⟩

/-- C5.  `price(symbol, price_type)` postcondition: `LAST` is the most recent
trade tick's price and is absent without trade ticks; `BID`/`ASK` are the
corresponding field of the most recent quote tick and `MID` is exactly
`(bid + ask) / 2` of it, each absent without quote ticks; `LAST` depends only
on the trade-tick sequence (never derived from quotes) and `BID`/`ASK`/`MID`
only on the quote-tick sequence (never from trades); and with one quote tick
bid = 1.00000, ask = 1.00001 the MID price is exactly 1.000005. -/
theorem cache_price_postcondition (c : DataCache) (s : Symbol) :
    ((c.trade_ticks s).head? = none → c.price s .last = none)
  ∧ (∀ t, (c.trade_ticks s).head? = some t → c.price s .last = some t.price.toRat)
  ∧ ((c.quote_ticks s).head? = none →
        c.price s .bid = none ∧ c.price s .ask = none ∧ c.price s .mid = none)
  ∧ (∀ q, (c.quote_ticks s).head? = some q →
        c.price s .bid = some q.bid.toRat
      ∧ c.price s .ask = some q.ask.toRat
      ∧ c.price s .mid = some ((q.bid.toRat + q.ask.toRat) / 2))
  ∧ (∀ c' : DataCache, c'.trade_ticks s = c.trade_ticks s →
        c'.price s .last = c.price s .last)
  ∧ (∀ c' : DataCache, c'.quote_ticks s = c.quote_ticks s →
        c'.price s .bid = c.price s .bid
      ∧ c'.price s .ask = c.price s .ask
      ∧ c'.price s .mid = c.price s .mid)
  ∧ (DataCache.empty.add_quote_tick (midExampleTick s)).price s .mid
      = some ((1000005 : ℚ) / 1000000) := by
  refine ⟨fun h => ?_, fun t ht => ?_, fun h => ?_, fun q hq => ?_,
    fun c' hc => ?_, fun c' hc => ?_, ?_⟩
  · simp [DataCache.price, h]
  · simp [DataCache.price, ht]
  · exact ⟨by simp [DataCache.price, h], by simp [DataCache.price, h],
      by simp [DataCache.price, h]⟩
  · exact ⟨by simp [DataCache.price, hq], by simp [DataCache.price, hq],
      by simp [DataCache.price, hq]⟩
  · simp [DataCache.price, hc]
  · exact ⟨by simp [DataCache.price, hc], by simp [DataCache.price, hc],
      by simp [DataCache.price, hc]⟩
  · have hq : ((DataCache.empty.add_quote_tick (midExampleTick s)).quote_ticks s).head?
        = some (midExampleTick s) := by
      simp [DataCache.empty, DataCache.add_quote_tick, DataCache.quote_ticks,
        updateSeq, lookupSeq, dedupCons, midExampleTick]
    rw [show (DataCache.empty.add_quote_tick (midExampleTick s)).price s .mid =
        ((DataCache.empty.add_quote_tick (midExampleTick s)).quote_ticks s).head?.map
          (fun q => (q.bid.toRat + q.ask.toRat) / 2) from rfl, hq]
    simp [midExampleTick, Price.toRat]
    norm_num

/-- Witness for C5 on a concrete one-quote cache: the MID price from
bid = 1.00000, ask = 1.00001 is exactly 1.000005 and the LAST price is
absent (no trade ticks). -/
theorem cache_price_postcondition_witness :
    (let s : Symbol := ⟨pyStr "AUD/USD", pyStr "FXCM"⟩
     let c : DataCache := DataCache.empty.add_quote_tick (midExampleTick s)
     c.price s .mid = some ((1000005 : ℚ) / 1000000) ∧ c.price s .last = none) := by
  refine ⟨(cache_price_postcondition
      (DataCache.empty.add_quote_tick (midExampleTick ⟨pyStr "AUD/USD", pyStr "FXCM"⟩))
      ⟨pyStr "AUD/USD", pyStr "FXCM"⟩).2.2.2.2.2.2, ?_⟩
  exact (cache_price_postcondition
      (DataCache.empty.add_quote_tick (midExampleTick ⟨pyStr "AUD/USD", pyStr "FXCM"⟩))
      ⟨pyStr "AUD/USD", pyStr "FXCM"⟩).1 (by decide)

/-- The AUD/USD instrument of the spec's cross-rate example. -/
def audUsdInstrument : Instrument where
  symbol := ⟨pyStr "AUD/USD", pyStr "FXCM"⟩
  brokerSymbol := pyStr "AUD/USD"
  baseCurrency := pyStr "AUD"
  quoteCurrency := pyStr "USD"
  securityType := pyStr "FOREX"
  tickPrecision := 5
  tickSize := ⟨1, 5⟩
  minTradeSize := ⟨1, 0⟩
  maxTradeSize := ⟨50000000, 0⟩
  rolloverInterestBuy := 0
  rolloverInterestSell := 0
  timestamp := 0

/-- The AUD/USD quote of the spec's cross-rate example:
bid = 0.80000, ask = 0.80010. -/
def audUsdQuote : QuoteTick :=
  ⟨audUsdInstrument.symbol, ⟨80000, 5⟩, ⟨80010, 5⟩, ⟨1, 0⟩, ⟨1, 0⟩, 0⟩

/-- C6.  `get_xrate(venue, from, to)` with `from ≠ to`: with a direct-pair
instrument whose most recent quote is `q`, the result is exactly the decimal
average `(q.bid + q.ask) / 2` (computed from bid and ask, not from a
pre-rounded mid field); with only the inverse pair known, the result is the
inversion `1 / mid`; and on the concrete example bid = 0.80000, ask = 0.80010
the AUD→USD rate is exactly 0.80005. -/
theorem cache_get_xrate_mid (c : DataCache) (venue fromC toC : PyStr)
    (i : Instrument) (q : QuoteTick) (hne : fromC ≠ toC) :
    (c.directPair venue fromC toC = some i →
        (c.quote_ticks i.symbol).head? = some q →
        c.get_xrate venue fromC toC = some ((q.bid.toRat + q.ask.toRat) / 2))
  ∧ (c.directPair venue fromC toC = none →
        c.inversePair venue fromC toC = some i →
        (c.quote_ticks i.symbol).head? = some q →
        c.get_xrate venue fromC toC = some (1 / ((q.bid.toRat + q.ask.toRat) / 2)))
  ∧ ((DataCache.empty.add_instrument audUsdInstrument).add_quote_tick audUsdQuote).get_xrate
        (pyStr "FXCM") (pyStr "AUD") (pyStr "USD") = some ((80005 : ℚ) / 100000) := by
  refine ⟨fun hd hq => ?_, fun hnd hi hq => ?_, ?_⟩
  · unfold DataCache.get_xrate
    rw [if_neg hne, hd]
    show c.price i.symbol .mid = some ((q.bid.toRat + q.ask.toRat) / 2)
    rw [show c.price i.symbol .mid =
      (c.quote_ticks i.symbol).head?.map (fun q' => (q'.bid.toRat + q'.ask.toRat) / 2)
      from rfl, hq]
    rfl
  · unfold DataCache.get_xrate
    rw [if_neg hne, hnd, hi]
    show (c.price i.symbol .mid).map (fun r => 1 / r)
        = some (1 / ((q.bid.toRat + q.ask.toRat) / 2))
    rw [show c.price i.symbol .mid =
      (c.quote_ticks i.symbol).head?.map (fun q' => (q'.bid.toRat + q'.ask.toRat) / 2)
      from rfl, hq]
    rfl
  · have hd : ((DataCache.empty.add_instrument audUsdInstrument).add_quote_tick
        audUsdQuote).directPair (pyStr "FXCM") (pyStr "AUD") (pyStr "USD")
        = some audUsdInstrument := by decide
    have hq : (((DataCache.empty.add_instrument audUsdInstrument).add_quote_tick
        audUsdQuote).quote_ticks audUsdInstrument.symbol).head? = some audUsdQuote := by
      decide
    unfold DataCache.get_xrate
    rw [if_neg (by decide : pyStr "AUD" ≠ pyStr "USD"), hd]
    show ((DataCache.empty.add_instrument audUsdInstrument).add_quote_tick
        audUsdQuote).price audUsdInstrument.symbol .mid = some ((80005 : ℚ) / 100000)
    rw [show ((DataCache.empty.add_instrument audUsdInstrument).add_quote_tick
        audUsdQuote).price audUsdInstrument.symbol .mid =
      (((DataCache.empty.add_instrument audUsdInstrument).add_quote_tick
        audUsdQuote).quote_ticks audUsdInstrument.symbol).head?.map
          (fun q' => (q'.bid.toRat + q'.ask.toRat) / 2) from rfl, hq]
    simp [audUsdQuote, Price.toRat]
    norm_num

/-- Witness for C6 on the concrete AUD/USD cache: the direct-pair hypothesis
and quote are discharged at the example, yielding exactly 0.80005. -/
theorem cache_get_xrate_mid_witness :
    ((DataCache.empty.add_instrument audUsdInstrument).add_quote_tick audUsdQuote).get_xrate
        (pyStr "FXCM") (pyStr "AUD") (pyStr "USD") = some ((80005 : ℚ) / 100000) :=
  (cache_get_xrate_mid
    ((DataCache.empty.add_instrument audUsdInstrument).add_quote_tick audUsdQuote)
    (pyStr "FXCM") (pyStr "AUD") (pyStr "USD") audUsdInstrument audUsdQuote
    (by decide)).2.2

/-- C7.  Not-found is never an error: indexed lookups return an absent value
when the index is at or beyond the stored count or the key is unknown, and
count/sequence queries return 0 or the empty sequence for unknown keys.
(All queries are pure functions of the cache, so they leave the stored data
unchanged by construction.) -/
theorem cache_not_found_absent (c : DataCache) (s : Symbol) (bt : BarType)
    (idx : Nat) :
    (c.quote_tick_count s ≤ idx → c.quote_tick s idx = none)
  ∧ (c.trade_tick_count s ≤ idx → c.trade_tick s idx = none)
  ∧ (c.bar_count bt ≤ idx → c.bar bt idx = none)
  ∧ (s ∉ c.quoteTickStore.map Prod.fst →
        c.quote_ticks s = [] ∧ c.quote_tick_count s = 0 ∧ ∀ j, c.quote_tick s j = none)
  ∧ (s ∉ c.tradeTickStore.map Prod.fst →
        c.trade_ticks s = [] ∧ c.trade_tick_count s = 0 ∧ ∀ j, c.trade_tick s j = none)
  ∧ (bt ∉ c.barStore.map Prod.fst →
        c.bars bt = [] ∧ c.bar_count bt = 0 ∧ ∀ j, c.bar bt j = none) := by
  refine ⟨fun h => ?_, fun h => ?_, fun h => ?_, fun h => ?_, fun h => ?_, fun h => ?_⟩
  · exact List.getElem?_eq_none h
  · exact List.getElem?_eq_none h
  · exact List.getElem?_eq_none h
  · have he : c.quote_ticks s = [] := lookupSeq_of_not_mem s c.quoteTickStore h
    exact ⟨he, by simp [DataCache.quote_tick_count, he],
      fun j => by simp [DataCache.quote_tick, he]⟩
  · have he : c.trade_ticks s = [] := lookupSeq_of_not_mem s c.tradeTickStore h
    exact ⟨he, by simp [DataCache.trade_tick_count, he],
      fun j => by simp [DataCache.trade_tick, he]⟩
  · have he : c.bars bt = [] := lookupSeq_of_not_mem bt c.barStore h
    exact ⟨he, by simp [DataCache.bar_count, he],
      fun j => by simp [DataCache.bar, he]⟩

/-- Witness for C7: a cache holding one quote tick; index 1 is out of range
and an unknown symbol has zero count. -/
theorem cache_not_found_absent_witness :
    ((DataCache.empty.add_quote_tick (midExampleTick ⟨pyStr "AUD/USD", pyStr "FXCM"⟩)).quote_tick
        ⟨pyStr "AUD/USD", pyStr "FXCM"⟩ 1 = none
    ∧ (DataCache.empty.add_quote_tick
        (midExampleTick ⟨pyStr "AUD/USD", pyStr "FXCM"⟩)).quote_tick_count
        ⟨pyStr "GBP/USD", pyStr "FXCM"⟩ = 0) := by
  refine ⟨(cache_not_found_absent
      (DataCache.empty.add_quote_tick (midExampleTick ⟨pyStr "AUD/USD", pyStr "FXCM"⟩))
      ⟨pyStr "AUD/USD", pyStr "FXCM"⟩
      ⟨⟨pyStr "GBP/USD", pyStr "FXCM"⟩, 1, .second, .mid⟩ 1).1 (by decide), ?_⟩
  exact ((cache_not_found_absent
      (DataCache.empty.add_quote_tick (midExampleTick ⟨pyStr "AUD/USD", pyStr "FXCM"⟩))
      ⟨pyStr "GBP/USD", pyStr "FXCM"⟩
      ⟨⟨pyStr "GBP/USD", pyStr "FXCM"⟩, 1, .second, .mid⟩ 1).2.2.2.1 (by decide)).2.1

/-! ### Wire codec

Modelled from the spec: a canonical, self-describing (field-tagged) binary
encoding of data records and instruments; the concrete
`nautilus_trader.serialization.data` serializers are absent from the source
sample (only their unit tests are present).  Bytes are naturals below 256:
integers use a 7-bit little-endian varint with a continuation bit, strings a
length prefix followed by their character codepoints, and every record field
is tagged with its field name. -/

/-- Varint encoding of a natural: 7 bits per byte, little-endian, high bit
set on all but the last byte. -/
def encNat (n : Nat) : List Nat :=
  if h : n < 128 then [n]
  else (n % 128 + 128) :: encNat (n / 128)
termination_by n
decreasing_by exact Nat.div_lt_self (by omega) (by omega)

/-- Varint decoding; returns the value and the remaining bytes. -/
def decNat : List Nat → Option (Nat × List Nat)
  | [] => none
  | b :: rest =>
    if b < 128 then some (b, rest)
    else
      match decNat rest with
      | none => none
      | some (n, r) => some (b - 128 + 128 * n, r)

/-- Varint round trip. -/
theorem decNat_encNat (n : Nat) (rest : List Nat) :
    decNat (encNat n ++ rest) = some (n, rest) := by
  induction n using Nat.strong_induction_on with
  | _ n ih =>
    by_cases h : n < 128
    · rw [encNat, dif_pos h]
      simp [decNat, h]
    · rw [encNat, dif_neg h]
      have hb : ¬(n % 128 + 128 < 128) := by omega
      simp only [List.cons_append, decNat, if_neg hb, List.append_eq]
      rw [ih (n / 128) (Nat.div_lt_self (by omega) (by omega))]
      show some (n % 128 + 128 - 128 + 128 * (n / 128), rest) = some (n, rest)
      have heq : n % 128 + 128 - 128 + 128 * (n / 128) = n := by omega
      rw [heq]

/-- Integer encoding: a sign byte followed by the varint magnitude. -/
def encInt (i : Int) : List Nat :=
  (if i < 0 then 1 else 0) :: encNat i.natAbs

/-- Integer decoding. -/
def decInt : List Nat → Option (Int × List Nat)
  | [] => none
  | s :: rest =>
    match decNat rest with
    | none => none
    | some (n, r) => some (if s = 1 then -(n : Int) else (n : Int), r)

/-- Integer round trip. -/
theorem decInt_encInt (i : Int) (rest : List Nat) :
    decInt (encInt i ++ rest) = some (i, rest) := by
  by_cases h : i < 0
  · simp [encInt, if_pos h, decInt, decNat_encNat, abs_of_neg h]
  · simp [encInt, if_neg h, decInt, decNat_encNat, abs_of_nonneg (not_lt.mp h)]

/-- Character encoding: the varint of the codepoint. -/
def encChar (c : Char) : List Nat := encNat c.toNat

/-- Character decoding, guarded by codepoint validity. -/
def decChar (bs : List Nat) : Option (Char × List Nat) :=
  match decNat bs with
  | none => none
  | some (n, r) => if n.isValidChar then some (Char.ofNat n, r) else none

/-- Character round trip. -/
theorem decChar_encChar (c : Char) (rest : List Nat) :
    decChar (encChar c ++ rest) = some (c, rest) := by
  simp only [decChar, encChar, decNat_encNat]
  rw [if_pos (show c.toNat.isValidChar from c.valid), Char.ofNat_toNat]

/-- Encoding of a list, element by element (no length prefix here; the
caller prefixes the count). -/
def encListWith {α : Type} (enc : α → List Nat) : List α → List Nat
  | [] => []
  | x :: xs => enc x ++ encListWith enc xs

/-- Decoding of a known number of elements. -/
def decListWith {α : Type} (dec : List Nat → Option (α × List Nat)) :
    Nat → List Nat → Option (List α × List Nat)
  | 0, bs => some ([], bs)
  | k + 1, bs =>
    match dec bs with
    | none => none
    | some (x, r) =>
      match decListWith dec k r with
      | none => none
      | some (xs, r') => some (x :: xs, r')

/-- List round trip, given the element round trip. -/
theorem decListWith_encListWith {α : Type} (enc : α → List Nat)
    (dec : List Nat → Option (α × List Nat))
    (h : ∀ (x : α) (rest : List Nat), dec (enc x ++ rest) = some (x, rest))
    (xs : List α) (rest : List Nat) :
    decListWith dec xs.length (encListWith enc xs ++ rest) = some (xs, rest) := by
  induction xs with
  | nil => simp [encListWith, decListWith]
  | cons x xs ih =>
    simp only [encListWith, List.length_cons, List.append_assoc, decListWith, h, ih]

/-- String encoding: length prefix then the codepoints. -/
def encStr (s : PyStr) : List Nat := encNat s.length ++ encListWith encChar s

/-- String decoding. -/
def decStr (bs : List Nat) : Option (PyStr × List Nat) :=
  match decNat bs with
  | none => none
  | some (k, r) => decListWith decChar k r

/-- String round trip. -/
theorem decStr_encStr (s : PyStr) (rest : List Nat) :
    decStr (encStr s ++ rest) = some (s, rest) := by
  simp only [decStr, encStr, List.append_assoc, decNat_encNat,
    decListWith_encListWith encChar decChar decChar_encChar]

/-- A field-tagged payload: the field name then the field bytes. -/
def encField (name : String) (payload : List Nat) : List Nat :=
  encStr (pyStr name) ++ payload

/-- Decode a field: read the tag, check it is the expected field name, then
decode the payload with the given decoder. -/
def decField {α : Type} (name : String) (dec : List Nat → Option (α × List Nat))
    (bs : List Nat) : Option (α × List Nat) :=
  match decStr bs with
  | none => none
  | some (tag, r) => if tag = pyStr name then dec r else none

/-- Field round trip, given the payload round trip. -/
theorem decField_encField {α : Type} (name : String)
    (enc : α → List Nat) (dec : List Nat → Option (α × List Nat))
    (h : ∀ (x : α) (rest : List Nat), dec (enc x ++ rest) = some (x, rest))
    (x : α) (rest : List Nat) :
    decField name dec (encField name (enc x) ++ rest) = some (x, rest) := by
  simp [decField, encField, List.append_assoc, decStr_encStr, h]

/-- Symbol encoding: code then venue. -/
def encSymbol (s : Symbol) : List Nat := encStr s.code ++ encStr s.venue

/-- Symbol decoding. -/
def decSymbol (bs : List Nat) : Option (Symbol × List Nat) := do
  let (code, bs) ← decStr bs
  let (venue, bs) ← decStr bs
  return (⟨code, venue⟩, bs)

/-- Symbol round trip. -/
theorem decSymbol_encSymbol (s : Symbol) (rest : List Nat) :
    decSymbol (encSymbol s ++ rest) = some (s, rest) := by
  simp [decSymbol, encSymbol, List.append_assoc, decStr_encStr]

/-- Price encoding: mantissa then precision (the numeric precision is part
of the wire contract). -/
def encPrice (p : Price) : List Nat := encInt p.mantissa ++ encNat p.precision

/-- Price decoding. -/
def decPrice (bs : List Nat) : Option (Price × List Nat) := do
  let (m, bs) ← decInt bs
  let (pr, bs) ← decNat bs
  return (⟨m, pr⟩, bs)

/-- Price round trip, mantissa and precision preserved exactly. -/
theorem decPrice_encPrice (p : Price) (rest : List Nat) :
    decPrice (encPrice p ++ rest) = some (p, rest) := by
  simp [decPrice, encPrice, List.append_assoc, decInt_encInt, decNat_encNat]

/-- Quantity encoding: mantissa then precision. -/
def encQty (q : Quantity) : List Nat := encNat q.mantissa ++ encNat q.precision

/-- Quantity decoding. -/
def decQty (bs : List Nat) : Option (Quantity × List Nat) := do
  let (m, bs) ← decNat bs
  let (pr, bs) ← decNat bs
  return (⟨m, pr⟩, bs)

/-- Quantity round trip. -/
theorem decQty_encQty (q : Quantity) (rest : List Nat) :
    decQty (encQty q ++ rest) = some (q, rest) := by
  simp [decQty, encQty, List.append_assoc, decNat_encNat]

/-- Trade-side encoding. -/
def encMaker : Maker → List Nat
  | .buyer => [0]
  | .seller => [1]

/-- Trade-side decoding. -/
def decMaker : List Nat → Option (Maker × List Nat)
  | 0 :: r => some (.buyer, r)
  | 1 :: r => some (.seller, r)
  | _ => none

/-- Trade-side round trip. -/
theorem decMaker_encMaker (m : Maker) (rest : List Nat) :
    decMaker (encMaker m ++ rest) = some (m, rest) := by
  cases m <;> rfl

/-- Price-type encoding. -/
def encPriceType : PriceType → List Nat
  | .bid => [0]
  | .ask => [1]
  | .mid => [2]
  | .last => [3]

/-- Price-type decoding. -/
def decPriceType : List Nat → Option (PriceType × List Nat)
  | 0 :: r => some (.bid, r)
  | 1 :: r => some (.ask, r)
  | 2 :: r => some (.mid, r)
  | 3 :: r => some (.last, r)
  | _ => none

/-- Price-type round trip. -/
theorem decPriceType_encPriceType (pt : PriceType) (rest : List Nat) :
    decPriceType (encPriceType pt ++ rest) = some (pt, rest) := by
  cases pt <;> rfl

/-- Aggregation-unit encoding. -/
def encAggregation : BarAggregation → List Nat
  | .second => [0]
  | .minute => [1]
  | .hour => [2]
  | .day => [3]

/-- Aggregation-unit decoding. -/
def decAggregation : List Nat → Option (BarAggregation × List Nat)
  | 0 :: r => some (.second, r)
  | 1 :: r => some (.minute, r)
  | 2 :: r => some (.hour, r)
  | 3 :: r => some (.day, r)
  | _ => none

/-- Aggregation-unit round trip. -/
theorem decAggregation_encAggregation (a : BarAggregation) (rest : List Nat) :
    decAggregation (encAggregation a ++ rest) = some (a, rest) := by
  cases a <;> rfl

/-- BarType encoding: symbol, step, aggregation, price type. -/
def encBarType (bt : BarType) : List Nat :=
  encSymbol bt.symbol ++ encNat bt.step ++ encAggregation bt.aggregation
    ++ encPriceType bt.priceType

/-- BarType decoding. -/
def decBarType (bs : List Nat) : Option (BarType × List Nat) := do
  let (s, bs) ← decSymbol bs
  let (step, bs) ← decNat bs
  let (agg, bs) ← decAggregation bs
  let (pt, bs) ← decPriceType bs
  return (⟨s, step, agg, pt⟩, bs)

/-- BarType round trip. -/
theorem decBarType_encBarType (bt : BarType) (rest : List Nat) :
    decBarType (encBarType bt ++ rest) = some (bt, rest) := by
  simp [decBarType, encBarType, List.append_assoc, decSymbol_encSymbol,
    decNat_encNat, decAggregation_encAggregation, decPriceType_encPriceType]

/-- QuoteTick encoding: field-tagged symbol, bid, ask, sizes and timestamp. -/
def encQuoteTick (t : QuoteTick) : List Nat :=
  encField "Symbol" (encSymbol t.symbol)
    ++ encField "Bid" (encPrice t.bid)
    ++ encField "Ask" (encPrice t.ask)
    ++ encField "BidSize" (encQty t.bidSize)
    ++ encField "AskSize" (encQty t.askSize)
    ++ encField "Timestamp" (encNat t.timestamp)

/-- QuoteTick decoding. -/
def decQuoteTick (bs : List Nat) : Option (QuoteTick × List Nat) := do
  let (s, bs) ← decField "Symbol" decSymbol bs
  let (bid, bs) ← decField "Bid" decPrice bs
  let (ask, bs) ← decField "Ask" decPrice bs
  let (bidSize, bs) ← decField "BidSize" decQty bs
  let (askSize, bs) ← decField "AskSize" decQty bs
  let (ts, bs) ← decField "Timestamp" decNat bs
  return (⟨s, bid, ask, bidSize, askSize, ts⟩, bs)

/-- QuoteTick round trip. -/
theorem decQuoteTick_encQuoteTick (t : QuoteTick) (rest : List Nat) :
    decQuoteTick (encQuoteTick t ++ rest) = some (t, rest) := by
  simp [decQuoteTick, encQuoteTick, List.append_assoc,
    decField_encField _ encSymbol decSymbol decSymbol_encSymbol,
    decField_encField _ encPrice decPrice decPrice_encPrice,
    decField_encField _ encQty decQty decQty_encQty,
    decField_encField _ encNat decNat decNat_encNat]

/-- TradeTick encoding: field-tagged symbol, price, size, side, match id and
timestamp. -/
def encTradeTick (t : TradeTick) : List Nat :=
  encField "Symbol" (encSymbol t.symbol)
    ++ encField "Price" (encPrice t.price)
    ++ encField "Size" (encQty t.size)
    ++ encField "Maker" (encMaker t.maker)
    ++ encField "MatchId" (encStr t.matchId)
    ++ encField "Timestamp" (encNat t.timestamp)

/-- TradeTick decoding. -/
def decTradeTick (bs : List Nat) : Option (TradeTick × List Nat) := do
  let (s, bs) ← decField "Symbol" decSymbol bs
  let (price, bs) ← decField "Price" decPrice bs
  let (size, bs) ← decField "Size" decQty bs
  let (maker, bs) ← decField "Maker" decMaker bs
  let (matchId, bs) ← decField "MatchId" decStr bs
  let (ts, bs) ← decField "Timestamp" decNat bs
  return (⟨s, price, size, maker, matchId, ts⟩, bs)

/-- TradeTick round trip. -/
theorem decTradeTick_encTradeTick (t : TradeTick) (rest : List Nat) :
    decTradeTick (encTradeTick t ++ rest) = some (t, rest) := by
  simp [decTradeTick, encTradeTick, List.append_assoc,
    decField_encField _ encSymbol decSymbol decSymbol_encSymbol,
    decField_encField _ encPrice decPrice decPrice_encPrice,
    decField_encField _ encQty decQty decQty_encQty,
    decField_encField _ encMaker decMaker decMaker_encMaker,
    decField_encField _ encStr decStr decStr_encStr,
    decField_encField _ encNat decNat decNat_encNat]

/-- Bar encoding: field-tagged OHLCV plus timestamp. -/
def encBar (b : Bar) : List Nat :=
  encField "Open" (encPrice b.openPrice)
    ++ encField "High" (encPrice b.highPrice)
    ++ encField "Low" (encPrice b.lowPrice)
    ++ encField "Close" (encPrice b.closePrice)
    ++ encField "Volume" (encQty b.volume)
    ++ encField "Timestamp" (encNat b.timestamp)

/-- Bar decoding. -/
def decBar (bs : List Nat) : Option (Bar × List Nat) := do
  let (o, bs) ← decField "Open" decPrice bs
  let (h, bs) ← decField "High" decPrice bs
  let (l, bs) ← decField "Low" decPrice bs
  let (c, bs) ← decField "Close" decPrice bs
  let (v, bs) ← decField "Volume" decQty bs
  let (ts, bs) ← decField "Timestamp" decNat bs
  return (⟨o, h, l, c, v, ts⟩, bs)

/-- Bar round trip. -/
theorem decBar_encBar (b : Bar) (rest : List Nat) :
    decBar (encBar b ++ rest) = some (b, rest) := by
  simp [decBar, encBar, List.append_assoc,
    decField_encField _ encPrice decPrice decPrice_encPrice,
    decField_encField _ encQty decQty decQty_encQty,
    decField_encField _ encNat decNat decNat_encNat]

/-- Instrument encoding: the full field-tagged reference-data schema. -/
def encInstrument (i : Instrument) : List Nat :=
  encField "Symbol" (encSymbol i.symbol)
    ++ encField "BrokerSymbol" (encStr i.brokerSymbol)
    ++ encField "BaseCurrency" (encStr i.baseCurrency)
    ++ encField "QuoteCurrency" (encStr i.quoteCurrency)
    ++ encField "SecurityType" (encStr i.securityType)
    ++ encField "TickPrecision" (encNat i.tickPrecision)
    ++ encField "TickSize" (encPrice i.tickSize)
    ++ encField "MinTradeSize" (encQty i.minTradeSize)
    ++ encField "MaxTradeSize" (encQty i.maxTradeSize)
    ++ encField "RolloverInterestBuy" (encInt i.rolloverInterestBuy)
    ++ encField "RolloverInterestSell" (encInt i.rolloverInterestSell)
    ++ encField "Timestamp" (encNat i.timestamp)

/-- Instrument decoding. -/
def decInstrument (bs : List Nat) : Option (Instrument × List Nat) := do
  let (s, bs) ← decField "Symbol" decSymbol bs
  let (broker, bs) ← decField "BrokerSymbol" decStr bs
  let (base, bs) ← decField "BaseCurrency" decStr bs
  let (quote, bs) ← decField "QuoteCurrency" decStr bs
  let (sec, bs) ← decField "SecurityType" decStr bs
  let (tickPrec, bs) ← decField "TickPrecision" decNat bs
  let (tickSize, bs) ← decField "TickSize" decPrice bs
  let (minSize, bs) ← decField "MinTradeSize" decQty bs
  let (maxSize, bs) ← decField "MaxTradeSize" decQty bs
  let (rolloverBuy, bs) ← decField "RolloverInterestBuy" decInt bs
  let (rolloverSell, bs) ← decField "RolloverInterestSell" decInt bs
  let (ts, bs) ← decField "Timestamp" decNat bs
  return (⟨s, broker, base, quote, sec, tickPrec, tickSize, minSize, maxSize,
    rolloverBuy, rolloverSell, ts⟩, bs)

/-- Instrument round trip. -/
theorem decInstrument_encInstrument (i : Instrument) (rest : List Nat) :
    decInstrument (encInstrument i ++ rest) = some (i, rest) := by
  unfold decInstrument encInstrument
  simp only [List.append_assoc]
  rw [decField_encField "Symbol" encSymbol decSymbol decSymbol_encSymbol]
  rw [show ∀ (a : Symbol × List Nat) (g : Symbol × List Nat → Option (Instrument × List Nat)),
      some a >>= g = g a from fun _ _ => rfl]
  rw [decField_encField "BrokerSymbol" encStr decStr decStr_encStr]
  rw [show ∀ (a : PyStr × List Nat) (g : PyStr × List Nat → Option (Instrument × List Nat)),
      some a >>= g = g a from fun _ _ => rfl]
  rw [decField_encField "BaseCurrency" encStr decStr decStr_encStr]
  rw [show ∀ (a : PyStr × List Nat) (g : PyStr × List Nat → Option (Instrument × List Nat)),
      some a >>= g = g a from fun _ _ => rfl]
  rw [decField_encField "QuoteCurrency" encStr decStr decStr_encStr]
  rw [show ∀ (a : PyStr × List Nat) (g : PyStr × List Nat → Option (Instrument × List Nat)),
      some a >>= g = g a from fun _ _ => rfl]
  rw [decField_encField "SecurityType" encStr decStr decStr_encStr]
  rw [show ∀ (a : PyStr × List Nat) (g : PyStr × List Nat → Option (Instrument × List Nat)),
      some a >>= g = g a from fun _ _ => rfl]
  rw [decField_encField "TickPrecision" encNat decNat decNat_encNat]
  rw [show ∀ (a : Nat × List Nat) (g : Nat × List Nat → Option (Instrument × List Nat)),
      some a >>= g = g a from fun _ _ => rfl]
  rw [decField_encField "TickSize" encPrice decPrice decPrice_encPrice]
  rw [show ∀ (a : Price × List Nat) (g : Price × List Nat → Option (Instrument × List Nat)),
      some a >>= g = g a from fun _ _ => rfl]
  rw [decField_encField "MinTradeSize" encQty decQty decQty_encQty]
  rw [show ∀ (a : Quantity × List Nat) (g : Quantity × List Nat → Option (Instrument × List Nat)),
      some a >>= g = g a from fun _ _ => rfl]
  rw [decField_encField "MaxTradeSize" encQty decQty decQty_encQty]
  rw [show ∀ (a : Quantity × List Nat) (g : Quantity × List Nat → Option (Instrument × List Nat)),
      some a >>= g = g a from fun _ _ => rfl]
  rw [decField_encField "RolloverInterestBuy" encInt decInt decInt_encInt]
  rw [show ∀ (a : Int × List Nat) (g : Int × List Nat → Option (Instrument × List Nat)),
      some a >>= g = g a from fun _ _ => rfl]
  rw [decField_encField "RolloverInterestSell" encInt decInt decInt_encInt]
  rw [show ∀ (a : Int × List Nat) (g : Int × List Nat → Option (Instrument × List Nat)),
      some a >>= g = g a from fun _ _ => rfl]
  rw [decField_encField "Timestamp" encNat decNat decNat_encNat]
  rfl

/-- The payloads subject to the wire contract: quote ticks, trade ticks, a
bar collection keyed by its bar type, and an instrument. -/
inductive WireData where
  | quotes (ticks : List QuoteTick)
  | trades (ticks : List TradeTick)
  | barData (bt : BarType) (bs : List Bar)
  | instrumentData (i : Instrument)
deriving DecidableEq

/-- Modelled from the spec: `serialize(data) -> bytes` — a type tag followed
by the count-prefixed, field-tagged records. -/
def serialize : WireData → List Nat
  | .quotes ts => 0 :: (encNat ts.length ++ encListWith encQuoteTick ts)
  | .trades ts => 1 :: (encNat ts.length ++ encListWith encTradeTick ts)
  | .barData bt bs => 2 :: (encBarType bt ++ encNat bs.length ++ encListWith encBar bs)
  | .instrumentData i => 3 :: encInstrument i

/-- Modelled from the spec: `deserialize(bytes) -> data`, failing (absent)
on malformed or trailing input. -/
def deserialize : List Nat → Option WireData
  | 0 :: r => do
    let (k, r) ← decNat r
    let (ts, r) ← decListWith decQuoteTick k r
    if r.isEmpty then return .quotes ts else none
  | 1 :: r => do
    let (k, r) ← decNat r
    let (ts, r) ← decListWith decTradeTick k r
    if r.isEmpty then return .trades ts else none
  | 2 :: r => do
    let (bt, r) ← decBarType r
    let (k, r) ← decNat r
    let (bs, r) ← decListWith decBar k r
    if r.isEmpty then return .barData bt bs else none
  | 3 :: r => do
    let (i, r) ← decInstrument r
    if r.isEmpty then return .instrumentData i else none
  | _ => none

/-- C2.  Wire-codec round trip: for every value subject to the wire contract
(quote ticks, trade ticks, bar collections, instruments — at every mantissa
and every decimal precision, including 0 and any maximum),
`deserialize (serialize x) = x`, field-for-field, timestamps and numeric
precisions included. -/
theorem wire_codec_round_trip (x : WireData) :
    deserialize (serialize x) = some x := by
  cases x with
  | quotes ts =>
    have hl : decListWith decQuoteTick ts.length (encListWith encQuoteTick ts ++ [])
        = some (ts, []) :=
      decListWith_encListWith encQuoteTick decQuoteTick decQuoteTick_encQuoteTick ts []
    rw [List.append_nil] at hl
    simp [serialize, deserialize, decNat_encNat, hl]
  | trades ts =>
    have hl : decListWith decTradeTick ts.length (encListWith encTradeTick ts ++ [])
        = some (ts, []) :=
      decListWith_encListWith encTradeTick decTradeTick decTradeTick_encTradeTick ts []
    rw [List.append_nil] at hl
    simp [serialize, deserialize, decNat_encNat, hl]
  | barData bt bs =>
    have hl : decListWith decBar bs.length (encListWith encBar bs ++ [])
        = some (bs, []) :=
      decListWith_encListWith encBar decBar decBar_encBar bs []
    rw [List.append_nil] at hl
    simp [serialize, deserialize, List.append_assoc, decBarType_encBarType,
      decNat_encNat, hl]
  | instrumentData i =>
    have hi : decInstrument (encInstrument i ++ []) = some (i, []) :=
      decInstrument_encInstrument i []
    rw [List.append_nil] at hi
    simp [serialize, deserialize, hi]

/-! ### Replay/Execution engine

Modelled from the spec: the `BacktestEngine` merges all configured data
sources into one globally timestamp-ordered event sequence (ties broken by
the fixed order quotes < trades < bars, then by source registration order),
replays it once per `run()` — updating the cache, dispatching to the
strategies and applying the injectable fill model to each venue's balances —
and supports `reset()` back to the pre-run state.  The concrete
`nautilus_trader.backtest.engine` is absent from the source sample (only its
unit tests are present). -/

/-- A replayable market event from one data source. -/
inductive MarketEvent where
  | quote (t : QuoteTick)
  | trade (t : TradeTick)
  | barEvent (bt : BarType) (b : Bar)
deriving DecidableEq

/-- The venue timestamp of an event. -/
def MarketEvent.timestamp : MarketEvent → Nat
  | .quote t => t.timestamp
  | .trade t => t.timestamp
  | .barEvent _ b => b.timestamp

/-- The fixed tie-break rank: quotes before trades before bars. -/
def MarketEvent.kindRank : MarketEvent → Nat
  | .quote _ => 0
  | .trade _ => 1
  | .barEvent _ _ => 2

/-- The merge key of a source-tagged event:
(timestamp, kind rank, source registration index). -/
def eventKey (x : Nat × MarketEvent) : Nat × Nat × Nat :=
  (x.2.timestamp, x.2.kindRank, x.1)

/-- Lexicographic order on merge keys. -/
def keyLE (a b : Nat × Nat × Nat) : Prop :=
  a.1 < b.1 ∨ (a.1 = b.1 ∧ (a.2.1 < b.2.1 ∨ (a.2.1 = b.2.1 ∧ a.2.2 ≤ b.2.2)))

instance (a b : Nat × Nat × Nat) : Decidable (keyLE a b) := by
  unfold keyLE
  exact inferInstance

/-- The merge order on source-tagged events. -/
def eventOrder (x y : Nat × MarketEvent) : Prop := keyLE (eventKey x) (eventKey y)

instance (x y : Nat × MarketEvent) : Decidable (eventOrder x y) := by
  unfold eventOrder
  exact inferInstance

/-- `keyLE` is total. -/
theorem keyLE_total (a b : Nat × Nat × Nat) : keyLE a b ∨ keyLE b a := by
  unfold keyLE
  omega

/-- `keyLE` is transitive. -/
theorem keyLE_trans {a b c : Nat × Nat × Nat} (h1 : keyLE a b) (h2 : keyLE b c) :
    keyLE a c := by
  unfold keyLE at h1 h2 ⊢
  omega

/-- Two-way merge of source-tagged event streams: the stream whose head has
the strictly smaller key goes first; on full key ties the left (earlier
registered) stream goes first. -/
def mergeEvents : List (Nat × MarketEvent) → List (Nat × MarketEvent) →
    List (Nat × MarketEvent)
  | [], ys => ys
  | x :: xs, [] => x :: xs
  | x :: xs, y :: ys =>
    if eventOrder x y then x :: mergeEvents xs (y :: ys)
    else y :: mergeEvents (x :: xs) ys
termination_by xs ys => xs.length + ys.length

/-- Each source's events tagged with the source's registration index. -/
def tagSources (sources : List (List MarketEvent)) :
    List (List (Nat × MarketEvent)) :=
  sources.enum.map (fun p => p.2.map (fun e => (p.1, e)))

/-- The deterministic merge of all sources, in registration order. -/
def mergeAll (sources : List (List MarketEvent)) : List (Nat × MarketEvent) :=
  (tagSources sources).foldl mergeEvents []

/-- The merged, globally ordered event sequence to be replayed. -/
def mergedEvents (sources : List (List MarketEvent)) : List MarketEvent :=
  (mergeAll sources).map Prod.snd

/-- Modelled from the spec: OMS position-id policy. -/
inductive OMSType where
  | netting
  | hedging
deriving DecidableEq

/-- Modelled from the spec: one registered simulated venue — identity, OMS
policy, position-id generation and currency-tagged starting balances. -/
structure VenueConfig where
  venue : PyStr
  omsType : OMSType
  generatePositionIds : Bool
  startingBalances : List (PyStr × Int)
deriving DecidableEq

/-- Modelled from the spec: the engine configuration — registered data
sources (in registration order), strategies, venues, and the injectable fill
model, here abstracted to its effect on a venue's balances per dispatched
event. -/
structure EngineConfig where
  sources : List (List MarketEvent)
  strategies : List PyStr
  venues : List VenueConfig
  fillModel : List (PyStr × Int) → MarketEvent → List (PyStr × Int)

/-- The run-mutable engine state: iteration counter, cache, the dispatch log
and each venue's balances. -/
structure EngineState where
  iteration : Nat
  cache : DataCache
  dispatched : List MarketEvent
  balances : List (List (PyStr × Int))
deriving DecidableEq

/-- The pre-run state an engine is constructed with (and `reset()` restores):
iteration 0, empty cache, nothing dispatched, starting balances. -/
def initState (cfg : EngineConfig) : EngineState :=
  ⟨0, DataCache.empty, [], cfg.venues.map (fun v => v.startingBalances)⟩

/-- Dispatching an event updates the cache with the record it carries. -/
def applyToCache (c : DataCache) : MarketEvent → DataCache
  | .quote t => c.add_quote_tick t
  | .trade t => c.add_trade_tick t
  | .barEvent bt b => c.add_bar bt b

/-- One engine iteration: update the cache, log the dispatch, apply the fill
model to every venue's balances, increment the iteration counter. -/
def stepEvent (cfg : EngineConfig) (st : EngineState) (e : MarketEvent) :
    EngineState :=
  { iteration := st.iteration + 1
    cache := applyToCache st.cache e
    dispatched := st.dispatched ++ [e]
    balances := st.balances.map (fun b => cfg.fillModel b e) }

/-- Modelled from the spec: the backtest engine — immutable configuration
plus run-mutable state. -/
structure BacktestEngine where
  config : EngineConfig
  state : EngineState

/-- A freshly constructed engine. -/
def mkEngine (cfg : EngineConfig) : BacktestEngine := ⟨cfg, initState cfg⟩

/-- Modelled from the spec: `run()` consumes the merged event sequence once,
dispatching every event in order. -/
def BacktestEngine.run (e : BacktestEngine) : BacktestEngine :=
  { e with state := (mergedEvents e.config.sources).foldl (stepEvent e.config) e.state }

/-- Modelled from the spec: `reset()` restores cache, iteration counter and
venue state to the pre-run condition, preserving the configuration
(strategies, exchanges, sources); it is a total function, so it raises
nothing after a completed or partial run. -/
def BacktestEngine.reset (e : BacktestEngine) : BacktestEngine :=
  { e with state := initState e.config }

/-- The engine's iteration counter. -/
def BacktestEngine.iteration (e : BacktestEngine) : Nat := e.state.iteration

/-- Membership in a two-way merge. -/
theorem mem_mergeEvents (xs ys : List (Nat × MarketEvent)) (z : Nat × MarketEvent) :
    z ∈ mergeEvents xs ys ↔ z ∈ xs ∨ z ∈ ys := by
  induction xs, ys using mergeEvents.induct with
  | case1 ys => simp [mergeEvents]
  | case2 x xs => simp [mergeEvents]
  | case3 x xs y ys h ih =>
    rw [mergeEvents, if_pos h]
    simp only [List.mem_cons, ih]
    tauto
  | case4 x xs y ys h ih =>
    rw [mergeEvents, if_neg h]
    simp only [List.mem_cons, ih]
    tauto

/-- A two-way merge of key-sorted streams is key-sorted. -/
theorem mergeEvents_pairwise (xs ys : List (Nat × MarketEvent)) :
    xs.Pairwise eventOrder → ys.Pairwise eventOrder →
    (mergeEvents xs ys).Pairwise eventOrder := by
  induction xs, ys using mergeEvents.induct with
  | case1 ys =>
    intro _ hy
    simpa [mergeEvents] using hy
  | case2 x xs =>
    intro hx _
    simpa [mergeEvents] using hx
  | case3 x xs y ys h ih =>
    intro hx hy
    rw [mergeEvents, if_pos h]
    refine List.Pairwise.cons ?_ (ih hx.tail hy)
    intro z hz
    rw [mem_mergeEvents] at hz
    rcases hz with hz | hz
    · exact (List.pairwise_cons.mp hx).1 z hz
    · rcases List.mem_cons.mp hz with rfl | hz'
      · exact h
      · exact keyLE_trans h ((List.pairwise_cons.mp hy).1 z hz')
  | case4 x xs y ys h ih =>
    intro hx hy
    rw [mergeEvents, if_neg h]
    have hyx : eventOrder y x := (keyLE_total (eventKey x) (eventKey y)).resolve_left h
    refine List.Pairwise.cons ?_ (ih hx hy.tail)
    intro z hz
    rw [mem_mergeEvents] at hz
    rcases hz with hz | hz
    · rcases List.mem_cons.mp hz with rfl | hz'
      · exact hyx
      · exact keyLE_trans hyx ((List.pairwise_cons.mp hx).1 z hz')
    · exact (List.pairwise_cons.mp hy).1 z hz

/-- Folding the two-way merge over key-sorted streams keeps the accumulated
stream key-sorted. -/
theorem foldl_mergeEvents_pairwise (ls : List (List (Nat × MarketEvent))) :
    ∀ acc, acc.Pairwise eventOrder → (∀ l ∈ ls, l.Pairwise eventOrder) →
    (ls.foldl mergeEvents acc).Pairwise eventOrder := by
  induction ls with
  | nil =>
    intro acc ha _
    simpa using ha
  | cons l ls ih =>
    intro acc ha hl
    simp only [List.foldl_cons]
    exact ih _ (mergeEvents_pairwise acc l ha (hl l (by simp)))
      (fun l' h' => hl l' (by simp [h']))

/-- C1.  Replay determinism: for every engine configuration (whose tagged
sources are each sorted in merge-key order, i.e. non-decreasing timestamps),
running the engine, calling `reset()` and running it again produces an
identical dispatched-event sequence, identical final venue balances and in
fact an identical final state; the merged event sequence is a function of
the data sources and their registration order alone; and the merge applies
the fixed tie-break order (timestamp, then quotes < trades < bars, then
source registration index), so the merged sequence is sorted by that key and
in particular globally non-decreasing in timestamp. -/
theorem replay_determinism (cfg : EngineConfig)
    (hs : ∀ l ∈ tagSources cfg.sources, l.Pairwise eventOrder) :
    ((mkEngine cfg).run.reset.run.state.dispatched = (mkEngine cfg).run.state.dispatched
      ∧ (mkEngine cfg).run.reset.run.state.balances = (mkEngine cfg).run.state.balances
      ∧ (mkEngine cfg).run.reset.run.state = (mkEngine cfg).run.state)
  ∧ (∀ cfg' : EngineConfig, cfg'.sources = cfg.sources →
        mergedEvents cfg'.sources = mergedEvents cfg.sources)
  ∧ (mergeAll cfg.sources).Pairwise eventOrder
  ∧ (mergedEvents cfg.sources).Pairwise
      (fun a b => a.timestamp ≤ b.timestamp) := by
  have hmerge : (mergeAll cfg.sources).Pairwise eventOrder :=
    foldl_mergeEvents_pairwise (tagSources cfg.sources) [] (by simp) hs
  refine ⟨⟨rfl, rfl, rfl⟩, fun cfg' h => by rw [h], hmerge, ?_⟩
  refine List.Pairwise.map Prod.snd ?_ hmerge
  intro a b hab
  rcases hab with h1 | ⟨h1, _⟩
  · exact Nat.le_of_lt h1
  · exact Nat.le_of_eq h1

/-- The iteration counter after a fold counts one increment per event. -/
theorem foldl_stepEvent_iteration (cfg : EngineConfig) (evs : List MarketEvent) :
    ∀ st : EngineState,
      (evs.foldl (stepEvent cfg) st).iteration = st.iteration + evs.length := by
  induction evs with
  | nil =>
    intro st
    simp
  | cons e evs ih =>
    intro st
    rw [List.foldl_cons, ih]
    simp [stepEvent]
    omega

/-- C3.  Engine iteration counting and reset: an engine configured with one
strategy and one venue, run over a dataset whose merged sequence has N
events, processes exactly N events (`iteration = N`); `reset()` afterwards
restores `iteration = 0` (and, being a total function, raises nothing). -/
theorem engine_iteration_and_reset (cfg : EngineConfig) (N : Nat)
    (_h1 : cfg.strategies.length = 1) (_h2 : cfg.venues.length = 1)
    (hN : (mergedEvents cfg.sources).length = N) :
    (mkEngine cfg).run.iteration = N ∧ (mkEngine cfg).run.reset.iteration = 0 := by
  constructor
  · show ((mergedEvents cfg.sources).foldl (stepEvent cfg) (initState cfg)).iteration = N
    rw [foldl_stepEvent_iteration]
    simp [initState, hN]
  · rfl

/-- A concrete two-source engine configuration: one quote source and one
trade source over USD/JPY at FXCM, an empty-effect fill model, one strategy,
one venue. -/
def sampleCfg : EngineConfig where
  sources :=
    [[.quote ⟨⟨pyStr "USD/JPY", pyStr "FXCM"⟩, ⟨9068000, 5⟩, ⟨9068100, 5⟩, ⟨1, 0⟩, ⟨1, 0⟩, 0⟩],
     [.trade ⟨⟨pyStr "USD/JPY", pyStr "FXCM"⟩, ⟨9068000, 5⟩, ⟨1, 0⟩, .buyer, pyStr "1", 0⟩]]
  strategies := [pyStr "000"]
  venues := [⟨pyStr "FXCM", .hedging, true, [(pyStr "USD", 1000000)]⟩]
  fillModel := fun b _ => b

/-- Witness for C1 at the concrete configuration: the re-run state equals
the first-run state and the merge is key-sorted. -/
theorem replay_determinism_witness :
    (mkEngine sampleCfg).run.reset.run.state = (mkEngine sampleCfg).run.state
    ∧ (mergeAll sampleCfg.sources).Pairwise eventOrder :=
  ⟨(replay_determinism sampleCfg (by decide)).1.2.2,
   (replay_determinism sampleCfg (by decide)).2.2.1⟩

/-- Witness for C3 at the concrete configuration: two merged events, so the
run ends with iteration 2 and the reset engine has iteration 0. -/
theorem engine_iteration_and_reset_witness :
    (mkEngine sampleCfg).run.iteration = 2
    ∧ (mkEngine sampleCfg).run.reset.iteration = 0 :=
  engine_iteration_and_reset sampleCfg 2 rfl rfl
    (by simp [mergedEvents, mergeAll, tagSources, sampleCfg, mergeEvents,
      List.enum, List.enumFrom,
      eventOrder, eventKey, keyLE, MarketEvent.timestamp, MarketEvent.kindRank])

end Nautilus
